import Mathlib

/-!
# Verification of the Black-Scholes-Merton pricing engine

Shallow embedding of `src/classes/option.py` over the real numbers:
the helper functions `_phi` (standard normal CDF via `erf`), `_norm_pdf`,
the scalar and vectorized Black-Scholes evaluators, and the validated,
frozen `Option` parameter model, together with theorems checking the
specification's claims against them.

Floating-point arithmetic is modelled by exact real arithmetic; Python's
`round(x, n)` (and `np.round`) is modelled by rounding `x * 10^n` to the
nearest integer.
-/

namespace BSM

noncomputable section

open Real

/-- The mathematical error function `erf x = (2/√π) ∫ t in 0..x, exp (-t²)`,
the function computed by Python's `math.erf`. -/
def erf (x : ℝ) : ℝ := 2 / Real.sqrt π * ∫ t in (0:ℝ)..x, Real.exp (-(t ^ 2))

/-- `_phi` from `option.py`: standard normal CDF via the error function,
`0.5 * (1.0 + math.erf(x / math.sqrt(2.0)))`. -/
def _phi (x : ℝ) : ℝ := 0.5 * (1 + erf (x / Real.sqrt 2))

/-- `_norm_pdf` from `option.py`: standard normal density
`math.exp(-0.5 * x * x) / math.sqrt(2.0 * math.pi)`. -/
def _norm_pdf (x : ℝ) : ℝ := Real.exp (-0.5 * x * x) / Real.sqrt (2 * π)

/-- Python's `round(x, n)` / NumPy's `np.round(x, n)` modelled over ℝ:
round `x * 10^n` to the nearest integer and scale back. -/
def roundTo (n : ℕ) (x : ℝ) : ℝ := (round (x * 10 ^ n) : ℝ) / 10 ^ n

/-- `bs_price_scalar` from `option.py`. -/
def bs_price_scalar (S K T r q sig : ℝ) (is_call : Bool) : ℝ :=
  let sqrtT := Real.sqrt T
  let sigsqrt := sig * sqrtT
  let inv_sigsqrt := 1 / sigsqrt
  let d1 := (Real.log (S / K) + (r - q + 0.5 * sig * sig) * T) * inv_sigsqrt
  let d2 := d1 - sigsqrt
  let e_qT := Real.exp (-q * T)
  let e_rT := Real.exp (-r * T)
  if is_call then
    S * e_qT * _phi d1 - K * e_rT * _phi d2
  else
    K * e_rT * _phi (-d2) - S * e_qT * _phi (-d1)

/-- `bs_price_strikes` from `option.py`: the loop body applied to each
element of `K_arr` in order. -/
def bs_price_strikes (S T r q sig : ℝ) (is_call : Bool) (K_arr : List ℝ) :
    List ℝ :=
  let sqrtT := Real.sqrt T
  let sigsqrt := sig * sqrtT
  let inv_sigsqrt := 1 / sigsqrt
  let e_qT := Real.exp (-q * T)
  let e_rT := Real.exp (-r * T)
  K_arr.map (fun K =>
    let d1 := (Real.log (S / K) + (r - q + 0.5 * sig * sig) * T) * inv_sigsqrt
    let d2 := d1 - sigsqrt
    if is_call then
      S * e_qT * _phi d1 - K * e_rT * _phi d2
    else
      K * e_rT * _phi (-d2) - S * e_qT * _phi (-d1))

/-- Return record for `bs_greeks_scalar`'s 5-tuple
`(delta, gamma, theta_daily, vega_per_1pct, rho_per_1pct)`. -/
structure Greeks where
  delta : ℝ
  gamma : ℝ
  theta_daily : ℝ
  vega_per_1pct : ℝ
  rho_per_1pct : ℝ

/-- `bs_greeks_scalar` from `option.py`. -/
def bs_greeks_scalar (S K T r q sig : ℝ) (is_call : Bool) : Greeks :=
  let sqrtT := Real.sqrt T
  let sigsqrt := sig * sqrtT
  let inv_sigsqrt := 1 / sigsqrt
  let d1 := (Real.log (S / K) + (r - q + 0.5 * sig * sig) * T) * inv_sigsqrt
  let d2 := d1 - sigsqrt
  let e_qT := Real.exp (-q * T)
  let e_rT := Real.exp (-r * T)
  let pdf_d1 := _norm_pdf d1
  let delta := if is_call then e_qT * _phi d1 else -e_qT * _phi (-d1)
  let gamma := e_qT * pdf_d1 / (S * sig * sqrtT)
  let theta_annual :=
    if is_call then
      -e_qT * pdf_d1 * sig / (2 * sqrtT) + q * e_qT * _phi d1
        - r * e_rT * K * _phi d2
    else
      -e_qT * pdf_d1 * sig / (2 * sqrtT) - q * e_qT * _phi (-d1)
        + r * e_rT * K * _phi (-d2)
  let theta_daily := theta_annual / 365
  let vega_raw := S * e_qT * pdf_d1 * sqrtT
  let vega_per_1pct := vega_raw / 100
  let rho_raw :=
    if is_call then K * T * e_rT * _phi d2 else -(K * T * e_rT * _phi (-d2))
  let rho_per_1pct := rho_raw / 100
  ⟨delta, gamma, theta_daily, vega_per_1pct, rho_per_1pct⟩

/-- `bs_greeks_strikes` from `option.py`: the loop body applied to each
element of `K_arr` in order; the five output arrays are recovered by
projecting the per-element record. -/
def bs_greeks_strikes (S T r q sig : ℝ) (is_call : Bool) (K_arr : List ℝ) :
    List Greeks :=
  let sqrtT := Real.sqrt T
  let sigsqrt := sig * sqrtT
  let inv_sigsqrt := 1 / sigsqrt
  let e_qT := Real.exp (-q * T)
  let e_rT := Real.exp (-r * T)
  K_arr.map (fun K =>
    let d1 := (Real.log (S / K) + (r - q + 0.5 * sig * sig) * T) * inv_sigsqrt
    let d2 := d1 - sigsqrt
    let pdf_d1 := _norm_pdf d1
    let delta := if is_call then e_qT * _phi d1 else -e_qT * _phi (-d1)
    let gamma := e_qT * pdf_d1 / (S * sig * sqrtT)
    let theta_annual :=
      if is_call then
        -e_qT * pdf_d1 * sig / (2 * sqrtT) + q * e_qT * _phi d1
          - r * e_rT * K * _phi d2
      else
        -e_qT * pdf_d1 * sig / (2 * sqrtT) - q * e_qT * _phi (-d1)
          + r * e_rT * K * _phi (-d2)
    let theta_daily := theta_annual / 365
    let vega_raw := S * e_qT * pdf_d1 * sqrtT
    let vega_per_1pct := vega_raw / 100
    let rho_raw :=
      if is_call then K * T * e_rT * _phi d2 else -(K * T * e_rT * _phi (-d2))
    let rho_per_1pct := rho_raw / 100
    ⟨delta, gamma, theta_daily, vega_per_1pct, rho_per_1pct⟩)

/-- The `Literal['call', 'put']` option-kind field. -/
inductive OptKind where
  | call : OptKind
  | put : OptKind
deriving DecidableEq, Repr

/-- The pydantic `Option` model's stored fields (after successful
validation). `S, K > 0`; `T_days > 0`; `r, dividend ≥ 0` in percent;
`sigma > 0` in percent. -/
structure Option where
  S : ℝ
  K : ℝ
  T_days : ℝ
  r : ℝ
  sigma : ℝ
  dividend : ℝ
  option_type : OptKind

/-- The field constraints declared on the pydantic model
(`gt=0` for S, K, T_days, sigma; `ge=0` for r, dividend). -/
def Valid (m : Option) : Prop :=
  0 < m.S ∧ 0 < m.K ∧ 0 < m.T_days ∧ 0 ≤ m.r ∧ 0 < m.sigma ∧ 0 ≤ m.dividend

instance (m : Option) : Decidable (Valid m) := by
  unfold Valid; infer_instance

/-- The per-field constraint violations collected by pydantic at
construction time: the offending field names, in declaration order
(`gt=0`, `gt=0`, `gt=0`, `ge=0`, `gt=0`, `ge=0`, and the
`Literal['call', 'put']` check). -/
def validationErrors (S K T_days r sigma dividend : ℝ)
    (option_type : String) : List String :=
  (if S > 0 then [] else ["S"]) ++
  (if K > 0 then [] else ["K"]) ++
  (if T_days > 0 then [] else ["T_days"]) ++
  (if r ≥ 0 then [] else ["r"]) ++
  (if sigma > 0 then [] else ["sigma"]) ++
  (if dividend ≥ 0 then [] else ["dividend"]) ++
  (if option_type = "call" ∨ option_type = "put" then [] else
    ["option_type"])

/-- Pydantic validation at construction: every field constraint is
checked, and a `ValidationError` naming each offending field is raised
when any fails; otherwise the frozen model is created. -/
def mkOption (S K T_days r sigma dividend : ℝ) (option_type : String) :
    Except (List String) Option :=
  if validationErrors S K T_days r sigma dividend option_type = [] then
    .ok ⟨S, K, T_days, r, sigma, dividend,
      if option_type = "call" then .call else .put⟩
  else
    .error (validationErrors S K T_days r sigma dividend option_type)

/-- `Option.T`: `self.T_days / 365.0` (computed property). -/
def Option.T (m : Option) : ℝ := m.T_days / 365

/-- `Option._r`: internal decimal rate `self.r / 100.0`. -/
def Option._r (m : Option) : ℝ := m.r / 100

/-- `Option._sigma`: internal decimal volatility `self.sigma / 100.0`. -/
def Option._sigma (m : Option) : ℝ := m.sigma / 100

/-- `Option._dividend`: internal decimal dividend `self.dividend / 100.0`. -/
def Option._dividend (m : Option) : ℝ := m.dividend / 100

/-- `self.option_type == 'call'`. -/
def Option.is_call (m : Option) : Bool := m.option_type = OptKind.call

/-- `Option.price`: scalar price rounded to 2 decimals. -/
def Option.price (m : Option) : ℝ :=
  roundTo 2 (bs_price_scalar m.S m.K m.T m._r m._dividend m._sigma m.is_call)

/-- `Option.price_for_strikes`: vectorized prices rounded to 2 decimals. -/
def Option.price_for_strikes (m : Option) (strikes : List ℝ) : List ℝ :=
  (bs_price_strikes m.S m.T m._r m._dividend m._sigma m.is_call
    strikes).map (roundTo 2)

/-- `Option.delta`: scalar delta rounded to 6 decimals. -/
def Option.delta (m : Option) : ℝ :=
  roundTo 6
    (bs_greeks_scalar m.S m.K m.T m._r m._dividend m._sigma m.is_call).delta

/-- `Option.gamma`: scalar gamma rounded to 6 decimals. -/
def Option.gamma (m : Option) : ℝ :=
  roundTo 6
    (bs_greeks_scalar m.S m.K m.T m._r m._dividend m._sigma m.is_call).gamma

/-- `Option.theta`: scalar daily theta rounded to 6 decimals. -/
def Option.theta (m : Option) : ℝ :=
  roundTo 6
    (bs_greeks_scalar m.S m.K m.T m._r m._dividend m._sigma
      m.is_call).theta_daily

/-- `Option.vega`: scalar vega (per 1 percentage point) rounded to
6 decimals. -/
def Option.vega (m : Option) : ℝ :=
  roundTo 6
    (bs_greeks_scalar m.S m.K m.T m._r m._dividend m._sigma
      m.is_call).vega_per_1pct

/-- `Option.rho`: scalar rho (per 1 percentage point) rounded to
6 decimals. -/
def Option.rho (m : Option) : ℝ :=
  roundTo 6
    (bs_greeks_scalar m.S m.K m.T m._r m._dividend m._sigma
      m.is_call).rho_per_1pct

/-- `Option.delta_for_strikes`: vectorized delta rounded to 6 decimals. -/
def Option.delta_for_strikes (m : Option) (strikes : List ℝ) : List ℝ :=
  ((bs_greeks_strikes m.S m.T m._r m._dividend m._sigma m.is_call
    strikes).map Greeks.delta).map (roundTo 6)

/-- `Option.gamma_for_strikes`: vectorized gamma rounded to 6 decimals. -/
def Option.gamma_for_strikes (m : Option) (strikes : List ℝ) : List ℝ :=
  ((bs_greeks_strikes m.S m.T m._r m._dividend m._sigma m.is_call
    strikes).map Greeks.gamma).map (roundTo 6)

/-- `Option.theta_for_strikes`: vectorized daily theta rounded to
6 decimals. -/
def Option.theta_for_strikes (m : Option) (strikes : List ℝ) : List ℝ :=
  ((bs_greeks_strikes m.S m.T m._r m._dividend m._sigma m.is_call
    strikes).map Greeks.theta_daily).map (roundTo 6)

/-- `Option.vega_for_strikes`: vectorized vega rounded to 6 decimals. -/
def Option.vega_for_strikes (m : Option) (strikes : List ℝ) : List ℝ :=
  ((bs_greeks_strikes m.S m.T m._r m._dividend m._sigma m.is_call
    strikes).map Greeks.vega_per_1pct).map (roundTo 6)

/-- `Option.rho_for_strikes`: vectorized rho rounded to 6 decimals. -/
def Option.rho_for_strikes (m : Option) (strikes : List ℝ) : List ℝ :=
  ((bs_greeks_strikes m.S m.T m._r m._dividend m._sigma m.is_call
    strikes).map Greeks.rho_per_1pct).map (roundTo 6)

/-- `Option.model_config` from the source:
`{"arbitrary_types_allowed": True, "frozen": True}`. -/
structure ModelConfig where
  arbitrary_types_allowed : Bool
  frozen : Bool

def Option.model_config : ModelConfig :=
  { arbitrary_types_allowed := true, frozen := true }

/-- The six real-valued stored fields of the model. -/
inductive FieldName where
  | S : FieldName
  | K : FieldName
  | T_days : FieldName
  | r : FieldName
  | sigma : FieldName
  | dividend : FieldName
deriving DecidableEq

/-- Modelled from the spec: pydantic attribute assignment. On a model
whose `model_config` has `"frozen": True` every assignment raises a
`ValidationError` (the fields are "thereafter read-only"); on a
non-frozen model it would update the field. The pydantic assignment
machinery itself is library code, not part of `src/`. -/
def Option.setField (m : Option) (f : FieldName) (v : ℝ) :
    Except String Option :=
  if Option.model_config.frozen then .error "Instance is frozen"
  else .ok (match f with
    | .S => { m with S := v }
    | .K => { m with K := v }
    | .T_days => { m with T_days := v }
    | .r => { m with r := v }
    | .sigma => { m with sigma := v }
    | .dividend => { m with dividend := v })

/-- `bs_price_scalar` with the Python numeric error surface made
explicit: `math.sqrt` raises `ValueError: math domain error` on a
negative argument, `1.0 / sigsqrt` raises `ZeroDivisionError` when
`sigsqrt` is zero, and `math.log` raises `ValueError: math domain error`
on a non-positive argument. -/
def bs_price_scalar_checked (S K T r q sig : ℝ) (is_call : Bool) :
    Except String ℝ :=
  if T < 0 then .error "math domain error"
  else if sig * Real.sqrt T = 0 then .error "float division by zero"
  else if S / K ≤ 0 then .error "math domain error"
  else .ok (bs_price_scalar S K T r q sig is_call)

/-- `bs_greeks_scalar` with the Python numeric error surface made
explicit (additionally the gamma divisor `S * sig * sqrtT` and the theta
divisor `2.0 * sqrtT`). -/
def bs_greeks_scalar_checked (S K T r q sig : ℝ) (is_call : Bool) :
    Except String Greeks :=
  if T < 0 then .error "math domain error"
  else if sig * Real.sqrt T = 0 then .error "float division by zero"
  else if S / K ≤ 0 then .error "math domain error"
  else if S * sig * Real.sqrt T = 0 then .error "float division by zero"
  else if 2 * Real.sqrt T = 0 then .error "float division by zero"
  else .ok (bs_greeks_scalar S K T r q sig is_call)

/-- `bs_price_strikes` with the Python numeric error surface made
explicit; `math.log(S / K)` is evaluated per strike inside the loop. -/
def bs_price_strikes_checked (S T r q sig : ℝ) (is_call : Bool)
    (K_arr : List ℝ) : Except String (List ℝ) :=
  if T < 0 then .error "math domain error"
  else if sig * Real.sqrt T = 0 then .error "float division by zero"
  else K_arr.mapM fun K =>
    if S / K ≤ 0 then .error "math domain error"
    else .ok (bs_price_scalar S K T r q sig is_call)

/-- `bs_greeks_strikes` with the Python numeric error surface made
explicit. -/
def bs_greeks_strikes_checked (S T r q sig : ℝ) (is_call : Bool)
    (K_arr : List ℝ) : Except String (List Greeks) :=
  if T < 0 then .error "math domain error"
  else if sig * Real.sqrt T = 0 then .error "float division by zero"
  else if S * sig * Real.sqrt T = 0 then .error "float division by zero"
  else if 2 * Real.sqrt T = 0 then .error "float division by zero"
  else K_arr.mapM fun K =>
    if S / K ≤ 0 then .error "math domain error"
    else .ok (bs_greeks_scalar S K T r q sig is_call)

/-- The `d1` intermediate quantity exactly as the evaluators compute it
(multiplication by `inv_sigsqrt`). -/
def d1f (S K T r q sig : ℝ) : ℝ :=
  (Real.log (S / K) + (r - q + 0.5 * sig * sig) * T) * (1 / (sig * Real.sqrt T))

/-- The `d2` intermediate quantity: `d1 - sigsqrt`. -/
def d2f (S K T r q sig : ℝ) : ℝ :=
  d1f S K T r q sig - sig * Real.sqrt T

/-- The vectorized-output contract of the spec: same length as the input
strike sequence and, position by position, the value of `f` at the
corresponding strike. -/
def agrees (out strikes : List ℝ) (f : ℝ → ℝ) : Prop :=
  out.length = strikes.length ∧
  ∀ (i : ℕ) (h1 : i < out.length) (h2 : i < strikes.length),
    out.get ⟨i, h1⟩ = f (strikes.get ⟨i, h2⟩)

/-- The specification's Black-Scholes-Merton price: percent inputs are
converted to decimal fractions first, `τ = T_days/365`,
`d1 = (ln(S/K) + (r' - q' + σ'²/2) τ)/(σ' √τ)`, `d2 = d1 - σ' √τ`,
call `S e^(-q'τ) Φ(d1) - K e^(-r'τ) Φ(d2)`,
put `K e^(-r'τ) Φ(-d2) - S e^(-q'τ) Φ(-d1)`, rounded to 2 decimals. -/
def specPrice (S K T_days r sigma q : ℝ) (kind : OptKind) : ℝ :=
  let τ := T_days / 365
  let rd := r / 100
  let qd := q / 100
  let sd := sigma / 100
  let d1 := (Real.log (S / K) + (rd - qd + 0.5 * sd ^ 2) * τ) / (sd * Real.sqrt τ)
  let d2 := d1 - sd * Real.sqrt τ
  match kind with
  | .call => roundTo 2
      (S * Real.exp (-qd * τ) * _phi d1 - K * Real.exp (-rd * τ) * _phi d2)
  | .put => roundTo 2
      (K * Real.exp (-rd * τ) * _phi (-d2) - S * Real.exp (-qd * τ) * _phi (-d1))

/-- The specification's `d1` in its written form (division by `σ'√τ`,
`σ'²` squared). -/
def spec_d1 (S K T_days r sigma q : ℝ) : ℝ :=
  (Real.log (S / K) + (r / 100 - q / 100 + 0.5 * (sigma / 100) ^ 2) *
      (T_days / 365)) / (sigma / 100 * Real.sqrt (T_days / 365))

/-- The specification's `d2 = d1 - σ'√τ`. -/
def spec_d2 (S K T_days r sigma q : ℝ) : ℝ :=
  spec_d1 S K T_days r sigma q - sigma / 100 * Real.sqrt (T_days / 365)

/-- The specification's delta, rounded to 6 decimals:
call `e^(-q'τ) Φ(d1)`, put `-e^(-q'τ) Φ(-d1)`. -/
def specDelta (S K T_days r sigma q : ℝ) (kind : OptKind) : ℝ :=
  roundTo 6 (match kind with
    | .call => Real.exp (-(q / 100) * (T_days / 365)) *
        _phi (spec_d1 S K T_days r sigma q)
    | .put => -Real.exp (-(q / 100) * (T_days / 365)) *
        _phi (-spec_d1 S K T_days r sigma q))

/-- The specification's gamma, rounded to 6 decimals:
`e^(-q'τ) φ(d1) / (S σ' √τ)`, identical for call and put. -/
def specGamma (S K T_days r sigma q : ℝ) : ℝ :=
  roundTo 6 (Real.exp (-(q / 100) * (T_days / 365)) *
    _norm_pdf (spec_d1 S K T_days r sigma q) /
    (S * (sigma / 100) * Real.sqrt (T_days / 365)))

/-- The claim's theta: the standard annualized closed-form
Black-Scholes-Merton theta (with the underlying-price factor `S` on the
`φ(d1)` and dividend terms), divided by 365 and rounded to 6 decimals. -/
def specThetaStd (S K T_days r sigma q : ℝ)
    (kind : OptKind) : ℝ :=
  roundTo 6 ((match kind with
    | .call => -(S * Real.exp (-(q / 100) * (T_days / 365)) *
          _norm_pdf (spec_d1 S K T_days r sigma q) * (sigma / 100)) /
          (2 * Real.sqrt (T_days / 365)) +
        q / 100 * S * Real.exp (-(q / 100) * (T_days / 365)) *
          _phi (spec_d1 S K T_days r sigma q) -
        r / 100 * K * Real.exp (-(r / 100) * (T_days / 365)) *
          _phi (spec_d2 S K T_days r sigma q)
    | .put => -(S * Real.exp (-(q / 100) * (T_days / 365)) *
          _norm_pdf (spec_d1 S K T_days r sigma q) * (sigma / 100)) /
          (2 * Real.sqrt (T_days / 365)) -
        q / 100 * S * Real.exp (-(q / 100) * (T_days / 365)) *
          _phi (-spec_d1 S K T_days r sigma q) +
        r / 100 * K * Real.exp (-(r / 100) * (T_days / 365)) *
          _phi (-spec_d2 S K T_days r sigma q)) / 365)

/-- The theta the code actually computes, daily and rounded to
6 decimals: the same closed form except that the `φ(d1)` decay term and
the dividend term are NOT multiplied by the underlying price `S`. -/
def specThetaAmended (S K T_days r sigma q : ℝ)
    (kind : OptKind) : ℝ :=
  roundTo 6 ((match kind with
    | .call => -Real.exp (-(q / 100) * (T_days / 365)) *
          _norm_pdf (spec_d1 S K T_days r sigma q) * (sigma / 100) /
          (2 * Real.sqrt (T_days / 365)) +
        q / 100 * Real.exp (-(q / 100) * (T_days / 365)) *
          _phi (spec_d1 S K T_days r sigma q) -
        r / 100 * Real.exp (-(r / 100) * (T_days / 365)) * K *
          _phi (spec_d2 S K T_days r sigma q)
    | .put => -Real.exp (-(q / 100) * (T_days / 365)) *
          _norm_pdf (spec_d1 S K T_days r sigma q) * (sigma / 100) /
          (2 * Real.sqrt (T_days / 365)) -
        q / 100 * Real.exp (-(q / 100) * (T_days / 365)) *
          _phi (-spec_d1 S K T_days r sigma q) +
        r / 100 * Real.exp (-(r / 100) * (T_days / 365)) * K *
          _phi (-spec_d2 S K T_days r sigma q)) / 365)

/-- The specification's vega per 1 percentage point, rounded to
6 decimals: `S e^(-q'τ) φ(d1) √τ / 100`. -/
def specVega (S K T_days r sigma q : ℝ) : ℝ :=
  roundTo 6 (S * Real.exp (-(q / 100) * (T_days / 365)) *
    _norm_pdf (spec_d1 S K T_days r sigma q) * Real.sqrt (T_days / 365) / 100)

/-- The specification's rho per 1 percentage point, rounded to
6 decimals: call `K τ e^(-r'τ) Φ(d2) / 100`, put
`-K τ e^(-r'τ) Φ(-d2) / 100`. -/
def specRho (S K T_days r sigma q : ℝ) (kind : OptKind) : ℝ :=
  roundTo 6 ((match kind with
    | .call => K * (T_days / 365) * Real.exp (-(r / 100) * (T_days / 365)) *
        _phi (spec_d2 S K T_days r sigma q)
    | .put => -(K * (T_days / 365) * Real.exp (-(r / 100) * (T_days / 365)) *
        _phi (-spec_d2 S K T_days r sigma q))) / 100)

end

/-! ## Analytic facts about the normal-distribution primitives -/

section NormalFacts

open Real MeasureTheory Set

lemma norm_pdf_eq (x : ℝ) :
    _norm_pdf x = Real.exp (-(1 / 2) * x ^ 2) / Real.sqrt (2 * π) := by
  unfold _norm_pdf
  rw [show -0.5 * x * x = -(1 / 2 : ℝ) * x ^ 2 by ring]

lemma norm_pdf_pos (x : ℝ) : 0 < _norm_pdf x := by
  unfold _norm_pdf
  have h2π : (0:ℝ) < 2 * π := by positivity
  exact div_pos (Real.exp_pos _) (Real.sqrt_pos.mpr h2π)

lemma norm_pdf_nonneg (x : ℝ) : 0 ≤ _norm_pdf x := (norm_pdf_pos x).le

lemma integrable_norm_pdf : Integrable _norm_pdf := by
  have h : _norm_pdf = fun x => Real.exp (-(1/2) * x ^ 2) * (Real.sqrt (2 * π))⁻¹ := by
    funext x
    rw [norm_pdf_eq, div_eq_mul_inv]
  rw [h]
  exact (integrable_exp_neg_mul_sq (by norm_num)).mul_const _

lemma integrableOn_norm_pdf (s : Set ℝ) : IntegrableOn _norm_pdf s :=
  integrable_norm_pdf.integrableOn

lemma integral_norm_pdf : ∫ x, _norm_pdf x = 1 := by
  have h : _norm_pdf = fun x => Real.exp (-(1/2) * x ^ 2) * (Real.sqrt (2 * π))⁻¹ := by
    funext x
    rw [norm_pdf_eq, div_eq_mul_inv]
  have h2π : Real.sqrt (2 * π) ≠ 0 := by positivity
  rw [h, integral_mul_right, integral_gaussian]
  rw [show π / (1/2 : ℝ) = 2 * π by ring]
  exact mul_inv_cancel₀ h2π

lemma norm_pdf_even (x : ℝ) : _norm_pdf (-x) = _norm_pdf x := by
  unfold _norm_pdf
  norm_num

lemma erf_neg (x : ℝ) : erf (-x) = -erf x := by
  unfold erf
  have heven : (fun t : ℝ => Real.exp (-(t ^ 2))) =
      fun t : ℝ => Real.exp (-((-t) ^ 2)) := by
    funext t; rw [neg_sq]
  have h : (∫ t in (0:ℝ)..(-x), Real.exp (-(t ^ 2))) =
      -∫ t in (0:ℝ)..x, Real.exp (-(t ^ 2)) := by
    calc (∫ t in (0:ℝ)..(-x), Real.exp (-(t ^ 2)))
        = ∫ t in (0:ℝ)..(-x), Real.exp (-((-t) ^ 2)) := by rw [← heven]
      _ = ∫ t in (x:ℝ)..0, Real.exp (-(t ^ 2)) := by
          rw [intervalIntegral.integral_comp_neg fun t => Real.exp (-(t ^ 2))]
          norm_num
      _ = -∫ t in (0:ℝ)..x, Real.exp (-(t ^ 2)) := intervalIntegral.integral_symm 0 x
  rw [h]
  ring

lemma phi_add_phi_neg (x : ℝ) : _phi x + _phi (-x) = 1 := by
  unfold _phi
  rw [neg_div, erf_neg]
  ring

lemma integral_Iic_zero_norm_pdf : (∫ z in Iic (0:ℝ), _norm_pdf z) = 1 / 2 := by
  have h1 : (∫ z in Iic (0:ℝ), _norm_pdf z) = ∫ z in Ioi (0:ℝ), _norm_pdf z := by
    have hc := integral_comp_neg_Iic (0:ℝ) _norm_pdf
    rw [neg_zero] at hc
    rw [← hc]
    exact setIntegral_congr_fun measurableSet_Iic fun z _ => (norm_pdf_even z).symm
  have h2 : (∫ z in Iic (0:ℝ), _norm_pdf z) + ∫ z in Ioi (0:ℝ), _norm_pdf z = 1 := by
    rw [intervalIntegral.integral_Iic_add_Ioi (integrableOn_norm_pdf _)
      (integrableOn_norm_pdf _), integral_norm_pdf]
  linarith

lemma phi_eq_integral (x : ℝ) : _phi x = ∫ z in Iic x, _norm_pdf z := by
  have hsub : (∫ z in Iic x, _norm_pdf z) =
      1 / 2 + ∫ z in (0:ℝ)..x, _norm_pdf z := by
    have h := intervalIntegral.integral_Iic_sub_Iic (μ := volume) (f := _norm_pdf) (a := 0) (b := x)
      (integrableOn_norm_pdf _) (integrableOn_norm_pdf _)
    rw [integral_Iic_zero_norm_pdf] at h
    linarith
  have hs2 : Real.sqrt 2 ≠ 0 := by positivity
  have hsπ : Real.sqrt π ≠ 0 := by positivity
  have hsub2 : (∫ t in (0:ℝ)..(x / Real.sqrt 2), Real.exp (-(t ^ 2))) =
      (Real.sqrt 2)⁻¹ * ∫ z in (0:ℝ)..x, Real.exp (-0.5 * z * z) := by
    have h := intervalIntegral.integral_comp_mul_left
      (f := fun z => Real.exp (-0.5 * z * z)) (a := 0) (b := x / Real.sqrt 2) hs2
    have harg : ∀ t : ℝ, Real.exp (-0.5 * (Real.sqrt 2 * t) * (Real.sqrt 2 * t)) =
        Real.exp (-(t ^ 2)) := by
      intro t
      congr 1
      have h22 : Real.sqrt 2 * Real.sqrt 2 = 2 :=
        Real.mul_self_sqrt (by norm_num)
      nlinarith [h22]
    simp only [harg] at h
    rw [mul_zero, mul_div_cancel₀ _ hs2] at h
    rw [h, smul_eq_mul]
  have hint : (∫ z in (0:ℝ)..x, _norm_pdf z) =
      (∫ z in (0:ℝ)..x, Real.exp (-0.5 * z * z)) / Real.sqrt (2 * π) := by
    unfold _norm_pdf
    rw [intervalIntegral.integral_div]
  have hsqrt : Real.sqrt (2 * π) = Real.sqrt 2 * Real.sqrt π :=
    Real.sqrt_mul (by norm_num) π
  rw [hsub, hint]
  unfold _phi erf
  rw [hsub2, hsqrt]
  field_simp
  ring

lemma integral_Ioi_norm_pdf (c : ℝ) :
    (∫ z in Ioi c, _norm_pdf z) = _phi (-c) := by
  have h := intervalIntegral.integral_Iic_add_Ioi (b := c) (μ := volume)
    (integrableOn_norm_pdf _) (integrableOn_norm_pdf _)
  rw [integral_norm_pdf] at h
  have h2 := phi_eq_integral c
  have h3 := phi_add_phi_neg c
  linarith

lemma phi_nonneg (x : ℝ) : 0 ≤ _phi x := by
  rw [phi_eq_integral]
  exact setIntegral_nonneg measurableSet_Iic fun z _ => norm_pdf_nonneg z

lemma setIntegral_norm_pdf_sub (a s : ℝ) :
    (∫ z in Ioi (a + s), _norm_pdf (z - s)) = ∫ z in Ioi a, _norm_pdf z := by
  have hemb : MeasurableEmbedding (fun z : ℝ => z + -s) :=
    (Homeomorph.addRight (-s)).isClosedEmbedding.measurableEmbedding
  have hmp : MeasurePreserving (fun z : ℝ => z + -s) volume volume :=
    measurePreserving_add_right volume (-s)
  have h := hmp.setIntegral_preimage_emb hemb _norm_pdf (Ioi a)
  rw [Set.preimage_add_const_Ioi, show a - -s = a + s by ring] at h
  simp only [← sub_eq_add_neg] at h
  exact h

lemma integrableOn_norm_pdf_sub (a s : ℝ) :
    IntegrableOn (fun z => _norm_pdf (z - s)) (Ioi a) := by
  have hemb : MeasurableEmbedding (fun z : ℝ => z + -s) :=
    (Homeomorph.addRight (-s)).isClosedEmbedding.measurableEmbedding
  have hmp : MeasurePreserving (fun z : ℝ => z + -s) volume volume :=
    measurePreserving_add_right volume (-s)
  have h := (hmp.integrableOn_comp_preimage hemb
    (f := _norm_pdf) (s := Ioi (a - s))).mpr (integrableOn_norm_pdf _)
  rw [Set.preimage_add_const_Ioi, show a - s - -s = a by ring] at h
  simpa only [Function.comp_def, ← sub_eq_add_neg] using h

/-- Pointwise Esscher-tilt identity for the normal density:
`φ(z - s) = exp (s z - s²/2) * φ(z)`. -/
lemma norm_pdf_sub (z s : ℝ) :
    _norm_pdf (z - s) = Real.exp (s * z - s ^ 2 / 2) * _norm_pdf z := by
  unfold _norm_pdf
  rw [mul_div_assoc', mul_comm (Real.exp (s * z - s ^ 2 / 2)), ← Real.exp_add]
  congr 2
  ring

/-- The core Black-Scholes inequality: for positive forward `F`, strike
`K` and total volatility `s`, `K Φ(d₂) ≤ F Φ(d₁)` where
`d₁ = (ln(F/K) + s²/2)/s` and `d₂ = (ln(F/K) - s²/2)/s`. -/
lemma bs_key_ineq (F K s : ℝ) (hF : 0 < F) (hK : 0 < K) (hs : 0 < s) :
    K * _phi ((Real.log (F / K) - s ^ 2 / 2) / s) ≤
      F * _phi ((Real.log (F / K) + s ^ 2 / 2) / s) := by
  set m := Real.log (F / K) with hm
  set d2 := (m - s ^ 2 / 2) / s with hd2
  set d1 := (m + s ^ 2 / 2) / s with hd1
  have hd : d1 = d2 + s := by
    rw [hd1, hd2]
    field_simp
    ring
  have hR : F * _phi d1 = ∫ z in Ioi (-d2), F * _norm_pdf (z - s) := by
    rw [integral_mul_left, show -d2 = -d1 + s by rw [hd]; ring,
      setIntegral_norm_pdf_sub, integral_Ioi_norm_pdf, neg_neg]
  have hL : K * _phi d2 = ∫ z in Ioi (-d2), K * _norm_pdf z := by
    rw [integral_mul_left, integral_Ioi_norm_pdf, neg_neg]
  have hpt : ∀ z ∈ Ioi (-d2), K * _norm_pdf z ≤ F * _norm_pdf (z - s) := by
    intro z hz
    have hz' : -d2 < z := hz
    have hlog : Real.log (K / F) = -m := by
      rw [hm, ← Real.log_inv, inv_div]
    have h1 : Real.log (K / F) < s * z - s ^ 2 / 2 := by
      rw [hlog]
      have : -(m - s ^ 2 / 2) / s < z := by rwa [neg_div, ← hd2]
      have h2 := (div_lt_iff₀ hs).mp this
      nlinarith
    have hexp : K < F * Real.exp (s * z - s ^ 2 / 2) := by
      have h2 := Real.exp_lt_exp.mpr h1
      rw [Real.exp_log (div_pos hK hF)] at h2
      calc K = F * (K / F) := by field_simp
        _ < F * Real.exp (s * z - s ^ 2 / 2) :=
            mul_lt_mul_of_pos_left h2 hF
    calc K * _norm_pdf z
        ≤ F * Real.exp (s * z - s ^ 2 / 2) * _norm_pdf z :=
          mul_le_mul_of_nonneg_right hexp.le (norm_pdf_nonneg z)
      _ = F * _norm_pdf (z - s) := by rw [norm_pdf_sub]; ring
  have hI1 : IntegrableOn (fun z => K * _norm_pdf z) (Ioi (-d2)) :=
    (integrable_norm_pdf.const_mul K).integrableOn
  have hI2 : IntegrableOn (fun z => F * _norm_pdf (z - s)) (Ioi (-d2)) :=
    (integrableOn_norm_pdf_sub _ s).const_mul F
  rw [hL, hR]
  exact setIntegral_mono_on hI1 hI2 measurableSet_Ioi hpt

end NormalFacts

/-! ## Facts about the rounding model -/

section RoundFacts

lemma roundTo_nonneg (n : ℕ) (x : ℝ) (hx : 0 ≤ x) : 0 ≤ roundTo n x := by
  unfold roundTo
  apply div_nonneg _ (by positivity)
  have h : (0:ℤ) ≤ round (x * 10 ^ n) := by
    rw [round_eq]
    exact Int.floor_nonneg.mpr (by positivity)
  exact_mod_cast h

lemma abs_roundTo_sub (n : ℕ) (x : ℝ) :
    |roundTo n x - x| ≤ 1 / (2 * 10 ^ n) := by
  unfold roundTo
  have h10 : (0:ℝ) < 10 ^ n := by positivity
  have h := abs_sub_round (x * 10 ^ n)
  rw [abs_sub_comm] at h
  calc |(round (x * 10 ^ n) : ℝ) / 10 ^ n - x|
      = |((round (x * 10 ^ n) : ℝ) - x * 10 ^ n) / 10 ^ n| := by
        congr 1
        field_simp
        ring
    _ = |(round (x * 10 ^ n) : ℝ) - x * 10 ^ n| / 10 ^ n := by
        rw [abs_div, abs_of_pos h10]
    _ ≤ (1 / 2) / 10 ^ n := by
        exact (div_le_div_iff_of_pos_right h10).mpr h
    _ = 1 / (2 * 10 ^ n) := by ring

end RoundFacts

/-! ## Normal forms of the evaluators -/

section NormalForm

lemma bs_price_scalar_call (S K T r q sig : ℝ) :
    bs_price_scalar S K T r q sig true =
      S * Real.exp (-q * T) * _phi (d1f S K T r q sig)
        - K * Real.exp (-r * T) * _phi (d2f S K T r q sig) := rfl

lemma bs_price_scalar_put (S K T r q sig : ℝ) :
    bs_price_scalar S K T r q sig false =
      K * Real.exp (-r * T) * _phi (-d2f S K T r q sig)
        - S * Real.exp (-q * T) * _phi (-d1f S K T r q sig) := rfl

lemma bs_greeks_scalar_call (S K T r q sig : ℝ) :
    bs_greeks_scalar S K T r q sig true =
      ⟨Real.exp (-q * T) * _phi (d1f S K T r q sig),
       Real.exp (-q * T) * _norm_pdf (d1f S K T r q sig) / (S * sig * Real.sqrt T),
       (-Real.exp (-q * T) * _norm_pdf (d1f S K T r q sig) * sig / (2 * Real.sqrt T)
         + q * Real.exp (-q * T) * _phi (d1f S K T r q sig)
         - r * Real.exp (-r * T) * K * _phi (d2f S K T r q sig)) / 365,
       S * Real.exp (-q * T) * _norm_pdf (d1f S K T r q sig) * Real.sqrt T / 100,
       K * T * Real.exp (-r * T) * _phi (d2f S K T r q sig) / 100⟩ := rfl

lemma bs_greeks_scalar_put (S K T r q sig : ℝ) :
    bs_greeks_scalar S K T r q sig false =
      ⟨-Real.exp (-q * T) * _phi (-d1f S K T r q sig),
       Real.exp (-q * T) * _norm_pdf (d1f S K T r q sig) / (S * sig * Real.sqrt T),
       (-Real.exp (-q * T) * _norm_pdf (d1f S K T r q sig) * sig / (2 * Real.sqrt T)
         - q * Real.exp (-q * T) * _phi (-d1f S K T r q sig)
         + r * Real.exp (-r * T) * K * _phi (-d2f S K T r q sig)) / 365,
       S * Real.exp (-q * T) * _norm_pdf (d1f S K T r q sig) * Real.sqrt T / 100,
       -(K * T * Real.exp (-r * T) * _phi (-d2f S K T r q sig)) / 100⟩ := rfl

lemma bs_price_strikes_eq_map (S T r q sig : ℝ) (c : Bool) (Ks : List ℝ) :
    bs_price_strikes S T r q sig c Ks =
      Ks.map fun K => bs_price_scalar S K T r q sig c := rfl

lemma bs_greeks_strikes_eq_map (S T r q sig : ℝ) (c : Bool) (Ks : List ℝ) :
    bs_greeks_strikes S T r q sig c Ks =
      Ks.map fun K => bs_greeks_scalar S K T r q sig c := rfl

end NormalForm

/-! ## Validation and vectorization helper lemmas -/

section ValidationFacts

lemma ite_nil_eq_nil {c : Prop} [Decidable c] (s : String) :
    ((if c then ([] : List String) else [s]) = []) ↔ c := by
  split_ifs with h <;> simp [h]

lemma mem_ite_nil {c : Prop} [Decidable c] (s t : String) :
    (s ∈ (if c then ([] : List String) else [t])) ↔ ¬c ∧ s = t := by
  split_ifs with h <;> simp [h]

lemma validationErrors_eq_nil_iff (S K T_days r sigma dividend : ℝ)
    (kind : String) :
    validationErrors S K T_days r sigma dividend kind = [] ↔
      (0 < S ∧ 0 < K ∧ 0 < T_days ∧ 0 ≤ r ∧ 0 < sigma ∧ 0 ≤ dividend ∧
        (kind = "call" ∨ kind = "put")) := by
  unfold validationErrors
  simp only [List.append_eq_nil, ite_nil_eq_nil, gt_iff_lt, ge_iff_le, and_assoc]

lemma mem_validationErrors_S (S K T_days r sigma dividend : ℝ) (kind : String) :
    "S" ∈ validationErrors S K T_days r sigma dividend kind ↔ ¬(0 < S) := by
  unfold validationErrors
  simp [List.mem_append, mem_ite_nil]

lemma mem_validationErrors_K (S K T_days r sigma dividend : ℝ) (kind : String) :
    "K" ∈ validationErrors S K T_days r sigma dividend kind ↔ ¬(0 < K) := by
  unfold validationErrors
  simp [List.mem_append, mem_ite_nil]

lemma mem_validationErrors_T_days (S K T_days r sigma dividend : ℝ)
    (kind : String) :
    "T_days" ∈ validationErrors S K T_days r sigma dividend kind ↔
      ¬(0 < T_days) := by
  unfold validationErrors
  simp [List.mem_append, mem_ite_nil]

lemma mem_validationErrors_r (S K T_days r sigma dividend : ℝ) (kind : String) :
    "r" ∈ validationErrors S K T_days r sigma dividend kind ↔ ¬(0 ≤ r) := by
  unfold validationErrors
  simp [List.mem_append, mem_ite_nil]

lemma mem_validationErrors_sigma (S K T_days r sigma dividend : ℝ)
    (kind : String) :
    "sigma" ∈ validationErrors S K T_days r sigma dividend kind ↔
      ¬(0 < sigma) := by
  unfold validationErrors
  simp [List.mem_append, mem_ite_nil]

lemma mem_validationErrors_dividend (S K T_days r sigma dividend : ℝ)
    (kind : String) :
    "dividend" ∈ validationErrors S K T_days r sigma dividend kind ↔
      ¬(0 ≤ dividend) := by
  unfold validationErrors
  simp [List.mem_append, mem_ite_nil]

lemma mem_validationErrors_option_type (S K T_days r sigma dividend : ℝ)
    (kind : String) :
    "option_type" ∈ validationErrors S K T_days r sigma dividend kind ↔
      ¬(kind = "call" ∨ kind = "put") := by
  unfold validationErrors
  simp [List.mem_append, mem_ite_nil]

lemma mkOption_error_of_mem {S K T_days r sigma dividend : ℝ} {kind : String}
    {e : String}
    (h : e ∈ validationErrors S K T_days r sigma dividend kind) :
    ∃ errs, mkOption S K T_days r sigma dividend kind = .error errs ∧
      e ∈ errs := by
  refine ⟨validationErrors S K T_days r sigma dividend kind, ?_, h⟩
  unfold mkOption
  rw [if_neg (List.ne_nil_of_mem h)]

end ValidationFacts

section VectorFacts

lemma agrees_map (strikes : List ℝ) (f : ℝ → ℝ) :
    agrees (strikes.map f) strikes f := by
  refine ⟨List.length_map _ _, ?_⟩
  intro i h1 h2
  simp [List.getElem_map]

end VectorFacts

section CheckedFacts

lemma mapM_guard_ok {α : Type} (p : ℝ → Prop) [DecidablePred p] (e : String)
    (g : ℝ → α) :
    ∀ Ks : List ℝ, (∀ K ∈ Ks, ¬p K) →
      (Ks.mapM fun K =>
        if p K then (.error e : Except String α) else .ok (g K)) =
        .ok (Ks.map g) := by
  intro Ks
  induction Ks with
  | nil => intro _; rfl
  | cons a l ih =>
    intro h
    have ha : ¬p a := h a (by simp)
    have hl := ih fun K hK => h K (by simp [hK])
    simp only [List.mapM_cons, List.map_cons, if_neg ha, hl]
    rfl

end CheckedFacts

/-! ## Specification-side reference definitions (written from the spec's
formulas, for the refinement comparisons) -/

section SpecSide

open Real

lemma d1f_eq_div (S K T r q sig : ℝ) :
    d1f S K T r q sig =
      (Real.log (S / K) + (r - q + 0.5 * sig ^ 2) * T) / (sig * Real.sqrt T) := by
  unfold d1f
  rw [mul_one_div]
  congr 1
  ring

lemma spec_d1_eq (S K T_days r sigma q : ℝ) :
    spec_d1 S K T_days r sigma q =
      d1f S K (T_days / 365) (r / 100) (q / 100) (sigma / 100) := by
  rw [d1f_eq_div]
  rfl

lemma spec_d2_eq (S K T_days r sigma q : ℝ) :
    spec_d2 S K T_days r sigma q =
      d2f S K (T_days / 365) (r / 100) (q / 100) (sigma / 100) := by
  unfold spec_d2 d2f
  rw [spec_d1_eq]

end SpecSide

/-! ## Parity identities for the unrounded evaluators -/

section ParityFacts

lemma price_parity (S K T r q sig : ℝ) :
    bs_price_scalar S K T r q sig true -
      bs_price_scalar S K T r q sig false =
      S * Real.exp (-q * T) - K * Real.exp (-r * T) := by
  rw [bs_price_scalar_call, bs_price_scalar_put]
  linear_combination (S * Real.exp (-q * T)) *
      phi_add_phi_neg (d1f S K T r q sig) -
    (K * Real.exp (-r * T)) * phi_add_phi_neg (d2f S K T r q sig)

lemma delta_parity (S K T r q sig : ℝ) :
    (bs_greeks_scalar S K T r q sig true).delta -
      (bs_greeks_scalar S K T r q sig false).delta =
      Real.exp (-q * T) := by
  rw [bs_greeks_scalar_call, bs_greeks_scalar_put]
  show Real.exp (-q * T) * _phi (d1f S K T r q sig) -
      -Real.exp (-q * T) * _phi (-d1f S K T r q sig) = Real.exp (-q * T)
  linear_combination Real.exp (-q * T) * phi_add_phi_neg (d1f S K T r q sig)

end ParityFacts

/-! ## Numeric bounds used by the theta counterexample -/

section NumericBounds

open Real

lemma roundTo_lt_roundTo (n : ℕ) {x y : ℝ} (h : x + 1 / 10 ^ n < y) :
    roundTo n x < roundTo n y := by
  have hx := abs_roundTo_sub n x
  have hy := abs_roundTo_sub n y
  rw [abs_le] at hx hy
  have key : (1:ℝ) / (2 * 10 ^ n) + 1 / (2 * 10 ^ n) = 1 / 10 ^ n := by
    field_simp
    norm_num
  linarith [hx.1, hx.2, hy.1, hy.2]

lemma sqrt_two_pi_le : Real.sqrt (2 * π) ≤ 2.51 := by
  have hπ : (π : ℝ) < 3.15 := Real.pi_lt_d2
  have h2π : (2:ℝ) * π ≤ 6.3001 := by linarith
  calc Real.sqrt (2 * π) ≤ Real.sqrt 6.3001 := Real.sqrt_le_sqrt h2π
    _ = Real.sqrt (2.51 ^ 2) := by norm_num
    _ = 2.51 := Real.sqrt_sq (by norm_num)

lemma norm_pdf_half_lb : (0.34 : ℝ) ≤ _norm_pdf (1 / 2) := by
  unfold _norm_pdf
  have h1 : -0.5 * (1 / 2 : ℝ) * (1 / 2) = -(1 / 8) := by norm_num
  have h2 : (7 / 8 : ℝ) ≤ Real.exp (-(1 / 8)) := by
    have := Real.add_one_le_exp (-(1 / 8) : ℝ)
    linarith
  have h3 := sqrt_two_pi_le
  have h4 : 0 < Real.sqrt (2 * π) := Real.sqrt_pos.mpr (by positivity)
  rw [h1]
  calc (0.34 : ℝ) ≤ (7 / 8) / 2.51 := by norm_num
    _ ≤ Real.exp (-(1 / 8)) / Real.sqrt (2 * π) :=
        div_le_div₀ (Real.exp_pos _).le h2 h4 h3

end NumericBounds

/-! ## Claim theorems -/

section Claims

open Real

/-- C1: for every valid parameter model, `price()` returns the
Black-Scholes-Merton price rounded to 2 decimal places, with the
percent-to-decimal conversion of rate, volatility and dividend applied
before any formula uses the values. -/
theorem price_matches_spec (m : Option) (hm : Valid m) :
    m.price = specPrice m.S m.K m.T_days m.r m.sigma m.dividend m.option_type := by
  clear hm
  cases hk : m.option_type with
  | call =>
    have hc : m.is_call = true := by
      simp [Option.is_call, hk]
    unfold Option.price specPrice
    rw [hc, bs_price_scalar_call]
    simp only [Option.T, Option._r, Option._sigma, Option._dividend]
    rw [d1f_eq_div]
    unfold d2f
    rw [d1f_eq_div]
  | put =>
    have hc : m.is_call = false := by
      simp [Option.is_call, hk]
    unfold Option.price specPrice
    rw [hc, bs_price_scalar_put]
    simp only [Option.T, Option._r, Option._sigma, Option._dividend]
    rw [d1f_eq_div]
    unfold d2f
    rw [d1f_eq_div]

/-- Witness for C1 at the spec's concrete scenario
S=142.27, K=142, T_days=25, r=1.75, sigma=22.69, dividend=1.6, call. -/
theorem price_matches_spec_witness :
    (Option.price ⟨142.27, 142, 25, 1.75, 22.69, 1.6, .call⟩ =
      specPrice 142.27 142 25 1.75 22.69 1.6 .call) :=
  price_matches_spec ⟨142.27, 142, 25, 1.75, 22.69, 1.6, .call⟩
    (by unfold Valid; norm_num)

/-- C9 helper: the unrounded call price is nonnegative for any positive
spot, strike, time and volatility (and arbitrary rate and dividend). -/
theorem bs_call_price_nonneg (S K T r q sig : ℝ) (hS : 0 < S) (hK : 0 < K)
    (hT : 0 < T) (hsig : 0 < sig) :
    0 ≤ S * Real.exp (-q * T) * _phi (d1f S K T r q sig) -
      K * Real.exp (-r * T) * _phi (d2f S K T r q sig) := by
  have hsqrt : 0 < Real.sqrt T := Real.sqrt_pos.mpr hT
  have hs : 0 < sig * Real.sqrt T := mul_pos hsig hsqrt
  have hF : 0 < S * Real.exp ((r - q) * T) := mul_pos hS (Real.exp_pos _)
  have key := bs_key_ineq (S * Real.exp ((r - q) * T)) K
    (sig * Real.sqrt T) hF hK hs
  have hlogF : Real.log (S * Real.exp ((r - q) * T) / K) =
      Real.log (S / K) + (r - q) * T := by
    rw [show S * Real.exp ((r - q) * T) / K =
      S / K * Real.exp ((r - q) * T) by ring,
      Real.log_mul (ne_of_gt (div_pos hS hK)) (Real.exp_ne_zero _),
      Real.log_exp]
  have hs2 : (sig * Real.sqrt T) ^ 2 = sig ^ 2 * T := by
    rw [mul_pow, Real.sq_sqrt hT.le]
  have hd1 : (Real.log (S * Real.exp ((r - q) * T) / K) +
      (sig * Real.sqrt T) ^ 2 / 2) / (sig * Real.sqrt T) =
      d1f S K T r q sig := by
    rw [d1f_eq_div, hlogF, hs2]
    congr 1
    ring
  have hd2 : (Real.log (S * Real.exp ((r - q) * T) / K) -
      (sig * Real.sqrt T) ^ 2 / 2) / (sig * Real.sqrt T) =
      d2f S K T r q sig := by
    unfold d2f
    rw [← hd1]
    field_simp
    ring
  rw [hd1, hd2] at key
  have hexp : Real.exp (-r * T) * (S * Real.exp ((r - q) * T)) =
      S * Real.exp (-q * T) := by
    rw [mul_comm (Real.exp (-r * T)), mul_assoc, ← Real.exp_add,
      show (r - q) * T + -r * T = -q * T by ring]
  have h0 : 0 ≤ Real.exp (-r * T) *
      (S * Real.exp ((r - q) * T) * _phi (d1f S K T r q sig) -
        K * _phi (d2f S K T r q sig)) :=
    mul_nonneg (Real.exp_pos _).le (sub_nonneg.mpr key)
  have hrw : Real.exp (-r * T) *
      (S * Real.exp ((r - q) * T) * _phi (d1f S K T r q sig) -
        K * _phi (d2f S K T r q sig)) =
      S * Real.exp (-q * T) * _phi (d1f S K T r q sig) -
        K * Real.exp (-r * T) * _phi (d2f S K T r q sig) := by
    linear_combination (_phi (d1f S K T r q sig)) * hexp
  rwa [hrw] at h0

/-- C9 helper: the unrounded put price is nonnegative for any positive
spot, strike, time and volatility (and arbitrary rate and dividend). -/
theorem bs_put_price_nonneg (S K T r q sig : ℝ) (hS : 0 < S) (hK : 0 < K)
    (hT : 0 < T) (hsig : 0 < sig) :
    0 ≤ K * Real.exp (-r * T) * _phi (-d2f S K T r q sig) -
      S * Real.exp (-q * T) * _phi (-d1f S K T r q sig) := by
  have hsqrt : 0 < Real.sqrt T := Real.sqrt_pos.mpr hT
  have hs : 0 < sig * Real.sqrt T := mul_pos hsig hsqrt
  have hF : 0 < S * Real.exp ((r - q) * T) := mul_pos hS (Real.exp_pos _)
  have key := bs_key_ineq K (S * Real.exp ((r - q) * T))
    (sig * Real.sqrt T) hK hF hs
  have hlogF : Real.log (S * Real.exp ((r - q) * T) / K) =
      Real.log (S / K) + (r - q) * T := by
    rw [show S * Real.exp ((r - q) * T) / K =
      S / K * Real.exp ((r - q) * T) by ring,
      Real.log_mul (ne_of_gt (div_pos hS hK)) (Real.exp_ne_zero _),
      Real.log_exp]
  have hs2 : (sig * Real.sqrt T) ^ 2 = sig ^ 2 * T := by
    rw [mul_pow, Real.sq_sqrt hT.le]
  have hd1 : (Real.log (S * Real.exp ((r - q) * T) / K) +
      (sig * Real.sqrt T) ^ 2 / 2) / (sig * Real.sqrt T) =
      d1f S K T r q sig := by
    rw [d1f_eq_div, hlogF, hs2]
    congr 1
    ring
  have hlogKF : Real.log (K / (S * Real.exp ((r - q) * T))) =
      -(Real.log (S / K) + (r - q) * T) := by
    rw [show K / (S * Real.exp ((r - q) * T)) =
      (S * Real.exp ((r - q) * T) / K)⁻¹ by rw [inv_div],
      Real.log_inv, hlogF]
  have hd2' : (Real.log (K / (S * Real.exp ((r - q) * T))) +
      (sig * Real.sqrt T) ^ 2 / 2) / (sig * Real.sqrt T) =
      -d2f S K T r q sig := by
    unfold d2f
    rw [hlogKF, ← hd1, hlogF]
    field_simp
    ring
  have hd1' : (Real.log (K / (S * Real.exp ((r - q) * T))) -
      (sig * Real.sqrt T) ^ 2 / 2) / (sig * Real.sqrt T) =
      -d1f S K T r q sig := by
    rw [hlogKF, ← hd1, hlogF]
    field_simp
    ring
  rw [hd1', hd2'] at key
  have hexp : Real.exp (-r * T) * (S * Real.exp ((r - q) * T)) =
      S * Real.exp (-q * T) := by
    rw [mul_comm (Real.exp (-r * T)), mul_assoc, ← Real.exp_add,
      show (r - q) * T + -r * T = -q * T by ring]
  have h0 : 0 ≤ Real.exp (-r * T) *
      (K * _phi (-d2f S K T r q sig) -
        S * Real.exp ((r - q) * T) * _phi (-d1f S K T r q sig)) :=
    mul_nonneg (Real.exp_pos _).le (sub_nonneg.mpr key)
  have hrw : Real.exp (-r * T) *
      (K * _phi (-d2f S K T r q sig) -
        S * Real.exp ((r - q) * T) * _phi (-d1f S K T r q sig)) =
      K * Real.exp (-r * T) * _phi (-d2f S K T r q sig) -
        S * Real.exp (-q * T) * _phi (-d1f S K T r q sig) := by
    linear_combination (-(_phi (-d1f S K T r q sig))) * hexp
  rwa [hrw] at h0

/-- C2: for every valid model and every strike sequence, each vectorized
accessor returns a sequence of the same length and order as the input
whose i-th element equals the corresponding scalar accessor on the model
with `K` replaced by `strikes[i]`, with identical rounding. -/
theorem vectorized_matches_scalar (m : Option) (hm : Valid m)
    (strikes : List ℝ) :
    agrees (m.price_for_strikes strikes) strikes
      (fun k => Option.price ⟨m.S, k, m.T_days, m.r, m.sigma, m.dividend,
        m.option_type⟩) ∧
    agrees (m.delta_for_strikes strikes) strikes
      (fun k => Option.delta ⟨m.S, k, m.T_days, m.r, m.sigma, m.dividend,
        m.option_type⟩) ∧
    agrees (m.gamma_for_strikes strikes) strikes
      (fun k => Option.gamma ⟨m.S, k, m.T_days, m.r, m.sigma, m.dividend,
        m.option_type⟩) ∧
    agrees (m.theta_for_strikes strikes) strikes
      (fun k => Option.theta ⟨m.S, k, m.T_days, m.r, m.sigma, m.dividend,
        m.option_type⟩) ∧
    agrees (m.vega_for_strikes strikes) strikes
      (fun k => Option.vega ⟨m.S, k, m.T_days, m.r, m.sigma, m.dividend,
        m.option_type⟩) ∧
    agrees (m.rho_for_strikes strikes) strikes
      (fun k => Option.rho ⟨m.S, k, m.T_days, m.r, m.sigma, m.dividend,
        m.option_type⟩) := by
  clear hm
  have hprice : m.price_for_strikes strikes =
      strikes.map (fun k => Option.price ⟨m.S, k, m.T_days, m.r, m.sigma,
        m.dividend, m.option_type⟩) := by
    unfold Option.price_for_strikes
    rw [bs_price_strikes_eq_map, List.map_map]
    rfl
  have hdelta : m.delta_for_strikes strikes =
      strikes.map (fun k => Option.delta ⟨m.S, k, m.T_days, m.r, m.sigma,
        m.dividend, m.option_type⟩) := by
    unfold Option.delta_for_strikes
    rw [bs_greeks_strikes_eq_map, List.map_map, List.map_map]
    rfl
  have hgamma : m.gamma_for_strikes strikes =
      strikes.map (fun k => Option.gamma ⟨m.S, k, m.T_days, m.r, m.sigma,
        m.dividend, m.option_type⟩) := by
    unfold Option.gamma_for_strikes
    rw [bs_greeks_strikes_eq_map, List.map_map, List.map_map]
    rfl
  have htheta : m.theta_for_strikes strikes =
      strikes.map (fun k => Option.theta ⟨m.S, k, m.T_days, m.r, m.sigma,
        m.dividend, m.option_type⟩) := by
    unfold Option.theta_for_strikes
    rw [bs_greeks_strikes_eq_map, List.map_map, List.map_map]
    rfl
  have hvega : m.vega_for_strikes strikes =
      strikes.map (fun k => Option.vega ⟨m.S, k, m.T_days, m.r, m.sigma,
        m.dividend, m.option_type⟩) := by
    unfold Option.vega_for_strikes
    rw [bs_greeks_strikes_eq_map, List.map_map, List.map_map]
    rfl
  have hrho : m.rho_for_strikes strikes =
      strikes.map (fun k => Option.rho ⟨m.S, k, m.T_days, m.r, m.sigma,
        m.dividend, m.option_type⟩) := by
    unfold Option.rho_for_strikes
    rw [bs_greeks_strikes_eq_map, List.map_map, List.map_map]
    rfl
  exact ⟨hprice ▸ agrees_map _ _, hdelta ▸ agrees_map _ _,
    hgamma ▸ agrees_map _ _, htheta ▸ agrees_map _ _,
    hvega ▸ agrees_map _ _, hrho ▸ agrees_map _ _⟩

/-- Witness for C2 with a concrete model and a three-strike sweep. -/
theorem vectorized_matches_scalar_witness :
    agrees (Option.price_for_strikes
        ⟨142.27, 142, 25, 1.75, 22.69, 1.6, .call⟩ [132, 142, 152])
      [132, 142, 152]
      (fun k => Option.price ⟨142.27, k, 25, 1.75, 22.69, 1.6, .call⟩) :=
  (vectorized_matches_scalar ⟨142.27, 142, 25, 1.75, 22.69, 1.6, .call⟩
    (by unfold Valid; norm_num) [132, 142, 152]).1

/-- C3: constructing the parameter model fails with a validation error
identifying the offending field whenever `S ≤ 0`, `K ≤ 0`, `T_days ≤ 0`,
`r < 0`, `sigma ≤ 0`, `dividend < 0`, or the option kind is neither
`'call'` nor `'put'`; construction with values satisfying all the
constraints never fails. -/
theorem construction_validation (S K T_days r sigma dividend : ℝ)
    (kind : String) :
    (S ≤ 0 → ∃ errs, mkOption S K T_days r sigma dividend kind = .error errs ∧
      "S" ∈ errs) ∧
    (K ≤ 0 → ∃ errs, mkOption S K T_days r sigma dividend kind = .error errs ∧
      "K" ∈ errs) ∧
    (T_days ≤ 0 → ∃ errs,
      mkOption S K T_days r sigma dividend kind = .error errs ∧
      "T_days" ∈ errs) ∧
    (r < 0 → ∃ errs, mkOption S K T_days r sigma dividend kind = .error errs ∧
      "r" ∈ errs) ∧
    (sigma ≤ 0 → ∃ errs,
      mkOption S K T_days r sigma dividend kind = .error errs ∧
      "sigma" ∈ errs) ∧
    (dividend < 0 → ∃ errs,
      mkOption S K T_days r sigma dividend kind = .error errs ∧
      "dividend" ∈ errs) ∧
    (kind ≠ "call" ∧ kind ≠ "put" → ∃ errs,
      mkOption S K T_days r sigma dividend kind = .error errs ∧
      "option_type" ∈ errs) ∧
    (0 < S → 0 < K → 0 < T_days → 0 ≤ r → 0 < sigma → 0 ≤ dividend →
      (kind = "call" ∨ kind = "put") →
      mkOption S K T_days r sigma dividend kind =
        .ok ⟨S, K, T_days, r, sigma, dividend,
          if kind = "call" then .call else .put⟩) := by
  refine ⟨?_, ?_, ?_, ?_, ?_, ?_, ?_, ?_⟩
  · intro h
    exact mkOption_error_of_mem
      ((mem_validationErrors_S S K T_days r sigma dividend kind).mpr
        (not_lt.mpr h))
  · intro h
    exact mkOption_error_of_mem
      ((mem_validationErrors_K S K T_days r sigma dividend kind).mpr
        (not_lt.mpr h))
  · intro h
    exact mkOption_error_of_mem
      ((mem_validationErrors_T_days S K T_days r sigma dividend kind).mpr
        (not_lt.mpr h))
  · intro h
    exact mkOption_error_of_mem
      ((mem_validationErrors_r S K T_days r sigma dividend kind).mpr
        (not_le.mpr h))
  · intro h
    exact mkOption_error_of_mem
      ((mem_validationErrors_sigma S K T_days r sigma dividend kind).mpr
        (not_lt.mpr h))
  · intro h
    exact mkOption_error_of_mem
      ((mem_validationErrors_dividend S K T_days r sigma dividend kind).mpr
        (not_le.mpr h))
  · intro h
    exact mkOption_error_of_mem
      ((mem_validationErrors_option_type S K T_days r sigma dividend
        kind).mpr (by tauto))
  · intro h1 h2 h3 h4 h5 h6 h7
    unfold mkOption
    rw [if_pos ((validationErrors_eq_nil_iff S K T_days r sigma dividend
      kind).mpr ⟨h1, h2, h3, h4, h5, h6, h7⟩)]

/-- Witness for C3: the spec's listed bad inputs each fail with the right
field named, and a fully valid input constructs successfully. -/
theorem construction_validation_witness :
    (∃ errs, mkOption 0 (-5) 0 (-1) 0 (-1) "callx" = .error errs ∧
      "S" ∈ errs) ∧
    mkOption 142.27 142 25 1.75 22.69 1.6 "call" =
      .ok ⟨142.27, 142, 25, 1.75, 22.69, 1.6, .call⟩ := by
  constructor
  · exact (construction_validation 0 (-5) 0 (-1) 0 (-1) "callx").1
      (by norm_num)
  · have h := (construction_validation 142.27 142 25 1.75 22.69 1.6
      "call").2.2.2.2.2.2.2 (by norm_num) (by norm_num) (by norm_num)
      (by norm_num) (by norm_num) (by norm_num) (Or.inl rfl)
    simpa using h

/-- C5: put-call parity. For matched parameters the 2-decimal rounded
call and put prices differ by `S e^(-q'τ) - K e^(-r'τ)` up to the
rounding tolerance ±0.01. -/
theorem put_call_parity (S K T_days r sigma dividend : ℝ)
    (hc : Valid ⟨S, K, T_days, r, sigma, dividend, .call⟩)
    (hp : Valid ⟨S, K, T_days, r, sigma, dividend, .put⟩) :
    |Option.price ⟨S, K, T_days, r, sigma, dividend, .call⟩ -
      Option.price ⟨S, K, T_days, r, sigma, dividend, .put⟩ -
      (S * Real.exp (-(dividend / 100) * (T_days / 365)) -
        K * Real.exp (-(r / 100) * (T_days / 365)))| ≤ 0.01 := by
  clear hc hp
  have hcall : Option.price ⟨S, K, T_days, r, sigma, dividend, .call⟩ =
      roundTo 2 (bs_price_scalar S K (T_days / 365) (r / 100)
        (dividend / 100) (sigma / 100) true) := rfl
  have hput : Option.price ⟨S, K, T_days, r, sigma, dividend, .put⟩ =
      roundTo 2 (bs_price_scalar S K (T_days / 365) (r / 100)
        (dividend / 100) (sigma / 100) false) := rfl
  have hpar := price_parity S K (T_days / 365) (r / 100) (dividend / 100)
    (sigma / 100)
  have h1 := abs_roundTo_sub 2 (bs_price_scalar S K (T_days / 365) (r / 100)
    (dividend / 100) (sigma / 100) true)
  have h2 := abs_roundTo_sub 2 (bs_price_scalar S K (T_days / 365) (r / 100)
    (dividend / 100) (sigma / 100) false)
  rw [abs_le] at h1 h2
  rw [hcall, hput, abs_le]
  have hb : (1:ℝ) / (2 * 10 ^ 2) = 1 / 200 := by norm_num
  constructor <;> nlinarith [h1.1, h1.2, h2.1, h2.2, hpar]

/-- Witness for C5 at the spec's concrete scenario. -/
theorem put_call_parity_witness :
    |Option.price ⟨142.27, 142, 25, 1.75, 22.69, 1.6, .call⟩ -
      Option.price ⟨142.27, 142, 25, 1.75, 22.69, 1.6, .put⟩ -
      (142.27 * Real.exp (-((1.6:ℝ) / 100) * (25 / 365)) -
        142 * Real.exp (-((1.75:ℝ) / 100) * (25 / 365)))| ≤ 0.01 :=
  put_call_parity 142.27 142 25 1.75 22.69 1.6
    (by unfold Valid; norm_num) (by unfold Valid; norm_num)

/-- C8: delta put-call parity. For matched parameters the 6-decimal
rounded call and put deltas differ by `e^(-q'τ)` within 1e-6. -/
theorem delta_put_call_parity (S K T_days r sigma dividend : ℝ)
    (hc : Valid ⟨S, K, T_days, r, sigma, dividend, .call⟩) :
    |Option.delta ⟨S, K, T_days, r, sigma, dividend, .call⟩ -
      Option.delta ⟨S, K, T_days, r, sigma, dividend, .put⟩ -
      Real.exp (-(dividend / 100) * (T_days / 365))| ≤ 1e-6 := by
  clear hc
  have hcall : Option.delta ⟨S, K, T_days, r, sigma, dividend, .call⟩ =
      roundTo 6 ((bs_greeks_scalar S K (T_days / 365) (r / 100)
        (dividend / 100) (sigma / 100) true).delta) := rfl
  have hput : Option.delta ⟨S, K, T_days, r, sigma, dividend, .put⟩ =
      roundTo 6 ((bs_greeks_scalar S K (T_days / 365) (r / 100)
        (dividend / 100) (sigma / 100) false).delta) := rfl
  have hpar := delta_parity S K (T_days / 365) (r / 100) (dividend / 100)
    (sigma / 100)
  have h1 := abs_roundTo_sub 6 ((bs_greeks_scalar S K (T_days / 365)
    (r / 100) (dividend / 100) (sigma / 100) true).delta)
  have h2 := abs_roundTo_sub 6 ((bs_greeks_scalar S K (T_days / 365)
    (r / 100) (dividend / 100) (sigma / 100) false).delta)
  rw [abs_le] at h1 h2
  rw [hcall, hput, abs_le]
  have hb : (1:ℝ) / (2 * 10 ^ 6) = 1 / 2000000 := by norm_num
  have he : (1e-6 : ℝ) = 1 / 1000000 := by norm_num
  constructor <;> nlinarith [h1.1, h1.2, h2.1, h2.2, hpar]

/-- Witness for C8 at the spec's concrete scenario. -/
theorem delta_put_call_parity_witness :
    |Option.delta ⟨142.27, 142, 25, 1.75, 22.69, 1.6, .call⟩ -
      Option.delta ⟨142.27, 142, 25, 1.75, 22.69, 1.6, .put⟩ -
      Real.exp (-((1.6:ℝ) / 100) * (25 / 365))| ≤ 1e-6 :=
  delta_put_call_parity 142.27 142 25 1.75 22.69 1.6
    (by unfold Valid; norm_num)

/-- C10: for every valid model, gamma and vega are strictly positive
before the 6-decimal rounding, the rounded accessors `gamma()` and
`vega()` are nonnegative, and neither quantity depends on the option
kind. -/
theorem gamma_vega_positive (m : Option) (hm : Valid m) :
    0 < (bs_greeks_scalar m.S m.K m.T m._r m._dividend m._sigma
      m.is_call).gamma ∧
    0 < (bs_greeks_scalar m.S m.K m.T m._r m._dividend m._sigma
      m.is_call).vega_per_1pct ∧
    0 ≤ m.gamma ∧ 0 ≤ m.vega ∧
    (bs_greeks_scalar m.S m.K m.T m._r m._dividend m._sigma true).gamma =
      (bs_greeks_scalar m.S m.K m.T m._r m._dividend m._sigma false).gamma ∧
    (bs_greeks_scalar m.S m.K m.T m._r m._dividend m._sigma
        true).vega_per_1pct =
      (bs_greeks_scalar m.S m.K m.T m._r m._dividend m._sigma
        false).vega_per_1pct := by
  obtain ⟨hS, hK, hT, hr, hσ, hq⟩ := hm
  have hT' : 0 < m.T := div_pos hT (by norm_num)
  have hσ' : 0 < m._sigma := div_pos hσ (by norm_num)
  have hsqrt : 0 < Real.sqrt m.T := Real.sqrt_pos.mpr hT'
  have hgamma : ∀ c : Bool,
      (bs_greeks_scalar m.S m.K m.T m._r m._dividend m._sigma c).gamma =
        Real.exp (-m._dividend * m.T) *
          _norm_pdf (d1f m.S m.K m.T m._r m._dividend m._sigma) /
          (m.S * m._sigma * Real.sqrt m.T) := by
    intro c
    cases c
    · rw [bs_greeks_scalar_put]
    · rw [bs_greeks_scalar_call]
  have hvega : ∀ c : Bool,
      (bs_greeks_scalar m.S m.K m.T m._r m._dividend m._sigma
        c).vega_per_1pct =
        m.S * Real.exp (-m._dividend * m.T) *
          _norm_pdf (d1f m.S m.K m.T m._r m._dividend m._sigma) *
          Real.sqrt m.T / 100 := by
    intro c
    cases c
    · rw [bs_greeks_scalar_put]
    · rw [bs_greeks_scalar_call]
  have hgpos : 0 < (bs_greeks_scalar m.S m.K m.T m._r m._dividend m._sigma
      m.is_call).gamma := by
    rw [hgamma]
    exact div_pos (mul_pos (Real.exp_pos _) (norm_pdf_pos _))
      (mul_pos (mul_pos hS hσ') hsqrt)
  have hvpos : 0 < (bs_greeks_scalar m.S m.K m.T m._r m._dividend m._sigma
      m.is_call).vega_per_1pct := by
    rw [hvega]
    exact div_pos (mul_pos (mul_pos (mul_pos hS (Real.exp_pos _))
      (norm_pdf_pos _)) hsqrt) (by norm_num)
  refine ⟨hgpos, hvpos, ?_, ?_, by rw [hgamma, hgamma], by rw [hvega, hvega]⟩
  · exact roundTo_nonneg 6 _ hgpos.le
  · exact roundTo_nonneg 6 _ hvpos.le

/-- Witness for C10 at the spec's concrete scenario. -/
theorem gamma_vega_positive_witness :
    0 ≤ Option.gamma ⟨142.27, 142, 25, 1.75, 22.69, 1.6, .call⟩ ∧
    0 ≤ Option.vega ⟨142.27, 142, 25, 1.75, 22.69, 1.6, .call⟩ :=
  ⟨(gamma_vega_positive ⟨142.27, 142, 25, 1.75, 22.69, 1.6, .call⟩
      (by unfold Valid; norm_num)).2.2.1,
   (gamma_vega_positive ⟨142.27, 142, 25, 1.75, 22.69, 1.6, .call⟩
      (by unfold Valid; norm_num)).2.2.2.1⟩

/-- C4 (counterexample): at the valid model S=1000, K=1000, T_days=365,
r=0, sigma=100, dividend=0, call, `theta()` does not return the standard
annualized closed-form Black-Scholes theta divided by 365 (rounded to
6 decimals): the code's decay and dividend terms lack the factor `S`. -/
theorem theta_not_standard_counterexample :
    Valid ⟨1000, 1000, 365, 0, 100, 0, .call⟩ ∧
    Option.theta ⟨1000, 1000, 365, 0, 100, 0, .call⟩ ≠
      specThetaStd 1000 1000 365 0 100 0 .call := by
  constructor
  · unfold Valid
    norm_num
  · have hd1f : d1f 1000 1000 ((365:ℝ) / 365) ((0:ℝ) / 100) ((0:ℝ) / 100)
        ((100:ℝ) / 100) = 1 / 2 := by
      unfold d1f
      rw [show (1000:ℝ) / 1000 = 1 by norm_num, Real.log_one]
      norm_num [Real.sqrt_one]
    have hd1s : spec_d1 1000 1000 365 0 100 0 = 1 / 2 := by
      rw [spec_d1_eq, hd1f]
    have hL : Option.theta ⟨1000, 1000, 365, 0, 100, 0, .call⟩ =
        roundTo 6 (-(_norm_pdf (1 / 2)) / 730) := by
      unfold Option.theta
      simp only [Option.T, Option._r, Option._sigma, Option._dividend]
      rw [show Option.is_call ⟨1000, 1000, 365, 0, 100, 0, .call⟩ = true
        from rfl]
      rw [bs_greeks_scalar_call, hd1f]
      congr 1
      rw [show ((0:ℝ) / 100) = 0 by norm_num,
        show ((100:ℝ) / 100) = 1 by norm_num,
        show ((365:ℝ) / 365) = 1 by norm_num, Real.sqrt_one]
      rw [show (-(0:ℝ) * 1) = 0 by ring, Real.exp_zero]
      ring
    have hR : specThetaStd 1000 1000 365 0 100 0 .call =
        roundTo 6 (-(500 * _norm_pdf (1 / 2)) / 365) := by
      unfold specThetaStd
      rw [hd1s]
      congr 1
      rw [show ((0:ℝ) / 100) = 0 by norm_num,
        show ((365:ℝ) / 365) = 1 by norm_num, Real.sqrt_one]
      rw [show (-(0:ℝ) * 1) = 0 by ring, Real.exp_zero]
      ring
    rw [hL, hR]
    have hp := norm_pdf_half_lb
    have harg : -(500 * _norm_pdf (1 / 2)) / 365 + 1 / 10 ^ 6 <
        -(_norm_pdf (1 / 2)) / 730 := by
      nlinarith
    exact (roundTo_lt_roundTo 6 harg).ne'

/-- C4 (amended): for every valid model, `theta()` returns the code's
closed form (decay and dividend terms without the factor `S`) divided by
365, `vega()` the standard per-1-percentage-point vega, `rho()` the
standard per-1-percentage-point rho with the sign flipped for puts, and
`delta()`, `gamma()`, `theta()`, `vega()`, `rho()` are each rounded to
6 decimal places. -/
theorem greek_conventions (m : Option) (hm : Valid m) :
    m.delta = specDelta m.S m.K m.T_days m.r m.sigma m.dividend
      m.option_type ∧
    m.gamma = specGamma m.S m.K m.T_days m.r m.sigma m.dividend ∧
    m.theta = specThetaAmended m.S m.K m.T_days m.r m.sigma m.dividend
      m.option_type ∧
    m.vega = specVega m.S m.K m.T_days m.r m.sigma m.dividend ∧
    m.rho = specRho m.S m.K m.T_days m.r m.sigma m.dividend
      m.option_type := by
  clear hm
  cases hk : m.option_type with
  | call =>
    have hc : m.is_call = true := by
      simp [Option.is_call, hk]
    refine ⟨?_, ?_, ?_, ?_, ?_⟩ <;>
    · simp only [Option.delta, Option.gamma, Option.theta, Option.vega,
        Option.rho, specDelta, specGamma, specThetaAmended, specVega,
        specRho, Option.T, Option._r, Option._sigma, Option._dividend, hc,
        bs_greeks_scalar_call, spec_d1_eq, spec_d2_eq]
  | put =>
    have hc : m.is_call = false := by
      simp [Option.is_call, hk]
    refine ⟨?_, ?_, ?_, ?_, ?_⟩ <;>
    · simp only [Option.delta, Option.gamma, Option.theta, Option.vega,
        Option.rho, specDelta, specGamma, specThetaAmended, specVega,
        specRho, Option.T, Option._r, Option._sigma, Option._dividend, hc,
        bs_greeks_scalar_put, spec_d1_eq, spec_d2_eq]

/-- Witness for the amended C4 at the spec's concrete scenario. -/
theorem greek_conventions_witness :
    Option.theta ⟨142.27, 142, 25, 1.75, 22.69, 1.6, .call⟩ =
      specThetaAmended 142.27 142 25 1.75 22.69 1.6 .call :=
  (greek_conventions ⟨142.27, 142, 25, 1.75, 22.69, 1.6, .call⟩
    (by unfold Valid; norm_num)).2.2.1

/-- C6: for every valid model (and positive strike sequence), the price
and Greek evaluators, scalar or vectorized, hit none of the numeric
error branches: `ln(S/K)` is defined (its argument is positive), the
divisor `σ'√τ` is nonzero, and the checked evaluators return exactly the
value of the unchecked ones. -/
theorem no_domain_error (m : Option) (hm : Valid m) (strikes : List ℝ)
    (hstrikes : ∀ k ∈ strikes, 0 < k) :
    m._sigma * Real.sqrt m.T ≠ 0 ∧ 0 < m.S / m.K ∧
    bs_price_scalar_checked m.S m.K m.T m._r m._dividend m._sigma
        m.is_call =
      .ok (bs_price_scalar m.S m.K m.T m._r m._dividend m._sigma
        m.is_call) ∧
    bs_greeks_scalar_checked m.S m.K m.T m._r m._dividend m._sigma
        m.is_call =
      .ok (bs_greeks_scalar m.S m.K m.T m._r m._dividend m._sigma
        m.is_call) ∧
    bs_price_strikes_checked m.S m.T m._r m._dividend m._sigma m.is_call
        strikes =
      .ok (bs_price_strikes m.S m.T m._r m._dividend m._sigma m.is_call
        strikes) ∧
    bs_greeks_strikes_checked m.S m.T m._r m._dividend m._sigma m.is_call
        strikes =
      .ok (bs_greeks_strikes m.S m.T m._r m._dividend m._sigma m.is_call
        strikes) := by
  obtain ⟨hS, hK, hT, hr, hσ, hq⟩ := hm
  have hT' : 0 < m.T := div_pos hT (by norm_num)
  have hσ' : 0 < m._sigma := div_pos hσ (by norm_num)
  have hsqrt : 0 < Real.sqrt m.T := Real.sqrt_pos.mpr hT'
  have h1 : ¬(m.T < 0) := not_lt.mpr hT'.le
  have h2 : m._sigma * Real.sqrt m.T ≠ 0 := (mul_pos hσ' hsqrt).ne'
  have h3 : 0 < m.S / m.K := div_pos hS hK
  have h3' : ¬(m.S / m.K ≤ 0) := not_le.mpr h3
  have h5 : m.S * m._sigma * Real.sqrt m.T ≠ 0 :=
    (mul_pos (mul_pos hS hσ') hsqrt).ne'
  have h6 : (2:ℝ) * Real.sqrt m.T ≠ 0 := (mul_pos two_pos hsqrt).ne'
  have hmem : ∀ K ∈ strikes, ¬(m.S / K ≤ 0) := fun K hKmem =>
    not_le.mpr (div_pos hS (hstrikes K hKmem))
  refine ⟨h2, h3, ?_, ?_, ?_, ?_⟩
  · unfold bs_price_scalar_checked
    rw [if_neg h1, if_neg h2, if_neg h3']
  · unfold bs_greeks_scalar_checked
    rw [if_neg h1, if_neg h2, if_neg h3', if_neg h5, if_neg h6]
  · unfold bs_price_strikes_checked
    rw [if_neg h1, if_neg h2,
      mapM_guard_ok (fun K => m.S / K ≤ 0) _ _ strikes hmem,
      bs_price_strikes_eq_map]
  · unfold bs_greeks_strikes_checked
    rw [if_neg h1, if_neg h2, if_neg h5, if_neg h6,
      mapM_guard_ok (fun K => m.S / K ≤ 0) _ _ strikes hmem,
      bs_greeks_strikes_eq_map]

/-- Witness for C6 at the spec's concrete scenario with a boundary-style
sweep of strikes. -/
theorem no_domain_error_witness :
    0 < (142.27:ℝ) / 142 ∧
    bs_price_scalar_checked 142.27 142 ((25:ℝ)/365) ((1.75:ℝ)/100)
        ((1.6:ℝ)/100) ((22.69:ℝ)/100) true =
      .ok (bs_price_scalar 142.27 142 ((25:ℝ)/365) ((1.75:ℝ)/100)
        ((1.6:ℝ)/100) ((22.69:ℝ)/100) true) := by
  have h := no_domain_error ⟨142.27, 142, 25, 1.75, 22.69, 1.6, .call⟩
    (by unfold Valid; norm_num) [132, 142, 152]
    (by intro k hk; fin_cases hk <;> norm_num)
  exact ⟨h.2.1, h.2.2.1⟩

/-- C7: the model is immutable after construction: `model_config` is
frozen, every attempted field assignment fails with a validation error,
and every derived quantity and evaluator output is a pure function of
the seven stored fields (evaluators take the model and return a value;
they cannot and do not change any stored field). -/
theorem model_immutable (m : Option) :
    Option.model_config.frozen = true ∧
    (∀ (f : FieldName) (v : ℝ),
      m.setField f v = .error "Instance is frozen") ∧
    m.T = m.T_days / 365 ∧ m._r = m.r / 100 ∧ m._sigma = m.sigma / 100 ∧
    m._dividend = m.dividend / 100 ∧
    (∀ m' : Option, m'.S = m.S → m'.K = m.K → m'.T_days = m.T_days →
      m'.r = m.r → m'.sigma = m.sigma → m'.dividend = m.dividend →
      m'.option_type = m.option_type →
      m'.T = m.T ∧ m'._r = m._r ∧ m'._sigma = m._sigma ∧
      m'._dividend = m._dividend ∧ m'.price = m.price ∧
      m'.delta = m.delta ∧ m'.gamma = m.gamma ∧ m'.theta = m.theta ∧
      m'.vega = m.vega ∧ m'.rho = m.rho ∧
      (∀ ks : List ℝ, m'.price_for_strikes ks = m.price_for_strikes ks ∧
        m'.delta_for_strikes ks = m.delta_for_strikes ks ∧
        m'.gamma_for_strikes ks = m.gamma_for_strikes ks ∧
        m'.theta_for_strikes ks = m.theta_for_strikes ks ∧
        m'.vega_for_strikes ks = m.vega_for_strikes ks ∧
        m'.rho_for_strikes ks = m.rho_for_strikes ks)) := by
  refine ⟨rfl, fun f v => rfl, rfl, rfl, rfl, rfl, ?_⟩
  intro m' h1 h2 h3 h4 h5 h6 h7
  have hm : m' = m := by
    cases m
    cases m'
    simp_all
  subst hm
  exact ⟨rfl, rfl, rfl, rfl, rfl, rfl, rfl, rfl, rfl, rfl,
    fun ks => ⟨rfl, rfl, rfl, rfl, rfl, rfl⟩⟩

/-- Witness for C7: assignment to a concrete frozen model fails. -/
theorem model_immutable_witness :
    Option.setField ⟨142.27, 142, 25, 1.75, 22.69, 1.6, .call⟩ .S 150 =
      .error "Instance is frozen" :=
  (model_immutable ⟨142.27, 142, 25, 1.75, 22.69, 1.6, .call⟩).2.1 .S 150

/-- C9: for every valid model, call or put, `price()` is nonnegative. -/
theorem price_always_nonneg (m : Option) (hm : Valid m) : 0 ≤ m.price := by
  obtain ⟨hS, hK, hT, hr, hσ, hq⟩ := hm
  have hT' : 0 < m.T := div_pos hT (by norm_num)
  have hσ' : 0 < m._sigma := div_pos hσ (by norm_num)
  unfold Option.price
  apply roundTo_nonneg
  cases m.is_call
  · rw [bs_price_scalar_put]
    exact bs_put_price_nonneg m.S m.K m.T m._r m._dividend m._sigma
      hS hK hT' hσ'
  · rw [bs_price_scalar_call]
    exact bs_call_price_nonneg m.S m.K m.T m._r m._dividend m._sigma
      hS hK hT' hσ'

/-- Witness for C9 with a deep out-of-the-money put. -/
theorem price_always_nonneg_witness :
    0 ≤ Option.price ⟨100, 1, 30, 5, 20, 1, .put⟩ :=
  price_always_nonneg ⟨100, 1, 30, 5, 20, 1, .put⟩
    (by unfold Valid; norm_num)

end Claims

end BSM
